import Mathlib

set_option autoImplicit false

namespace Ero2

/-!
Shallow embedding of the discrete-event simulation core of the repository:
jobs, the centralized event logger, capacity-limited queues (bounded-wait
and loss system), the scheduling policies (FIFO, SJF, type priority), the
gating controller, and the heterogeneous server.  Simulated time and
durations are rationals; the Python value None becomes Option.none.
-/

/-- Embeds the class Job of src/core/simulation_engine.py: identity, type
tag, arrival timestamp, optional service duration and start/end timestamps,
rejection flag and reason, server id. -/
structure Job where
  id : Nat
  job_type : String
  arrival_time : ℚ
  assignment : String := "generic"
  service_time : Option ℚ := none
  start_time : Option ℚ := none
  end_time : Option ℚ := none
  was_rejected : Bool := false
  rejection_reason : Option String := none
  server_id : Option String := none
deriving DecidableEq

/-- Embeds Job.get_waiting_time: None until start_time is set, otherwise
start minus arrival. -/
def Job.get_waiting_time (j : Job) : Option ℚ :=
  match j.start_time with
  | none => none
  | some s => some (s - j.arrival_time)

/-- Embeds Job.get_response_time: None until end_time is set, otherwise
end minus arrival. -/
def Job.get_response_time (j : Job) : Option ℚ :=
  match j.end_time with
  | none => none
  | some e => some (e - j.arrival_time)

/-- Embeds the body of Server.process in src/core/simulation_engine.py once
the resource request is granted: the job start_time is set to the grant
instant, the service duration is drawn, the process suspends for that
duration, and end_time is set to grant plus duration (the SimPy clock after
a timeout of d starting at g reads g + d). -/
def Server.process (sid : String) (job : Job) (grantTime serviceTime : ℚ) : Job :=
  { job with
    start_time := some grantTime
    server_id := some sid
    service_time := some serviceTime
    end_time := some (grantTime + serviceTime) }

/-- Embeds GatingController.is_open of src/regulation/gating.py: scans the
closed intervals and reports closed exactly when some interval satisfies
start ≤ t < end. -/
def GatingController.is_open (gating_intervals : List (ℚ × ℚ)) (t : ℚ) : Bool :=
  !(gating_intervals.any (fun iv => decide (iv.1 ≤ t) && decide (t < iv.2)))

/-- Embeds the next-opening search inside GatingController.wait_until_open:
the end of the first listed interval covering the current time. -/
def GatingController.next_open (gating_intervals : List (ℚ × ℚ)) (t : ℚ) : Option ℚ :=
  (gating_intervals.find? (fun iv => decide (iv.1 ≤ t) && decide (t < iv.2))).map Prod.snd

/-- Embeds the loop of GatingController.wait_until_open: while closed, jump
to the end of the covering interval and re-check; the Python guard
`if next_open` is falsy both for None and for the value 0, in which case the
loop breaks.  The fuel argument bounds the iteration count; each interval
can be the covering one at most once, so intervals.length + 1 fuel is enough. -/
def GatingController.wait_until_open : Nat → List (ℚ × ℚ) → ℚ → ℚ
  | 0, _, t => t
  | fuel + 1, ivs, t =>
    if GatingController.is_open ivs t then t
    else
      match GatingController.next_open ivs t with
      | some e => if e = 0 then t else GatingController.wait_until_open fuel ivs e
      | none => t

/-- Runs wait_until_open with enough fuel for the interval list. -/
def GatingController.wait_until_open_run (ivs : List (ℚ × ℚ)) (t : ℚ) : ℚ :=
  GatingController.wait_until_open (ivs.length + 1) ivs t

/-- Embeds PriorityQueue.get_next_fifo of src/regulation/priority_queue.py:
pop the head of the queue list, None on an empty queue. -/
def PriorityQueue.get_next_fifo (q : List Job) : Option (Job × List Job) :=
  match q with
  | [] => none
  | j :: rest => some (j, rest)

/-- Embeds the pattern queue.pop(i) where i is the index of the first job
satisfying p: returns that job and the remaining queue in order. -/
def PriorityQueue.popFirst (p : Job → Bool) : List Job → Option (Job × List Job)
  | [] => none
  | j :: rest =>
    if p j then some (j, rest)
    else
      match PriorityQueue.popFirst p rest with
      | some (k, rest2) => some (k, j :: rest2)
      | none => none

/-- Embeds the SJF comparison key of get_next_sjf: the Python expression
job.service_time if job.service_time else float(inf) maps None to infinity
and, because the float 0.0 is falsy in Python, also maps a zero duration to
infinity; none encodes infinity here. -/
def PriorityQueue.sjfKey (j : Job) : Option ℚ :=
  match j.service_time with
  | none => none
  | some t => if t = 0 then none else some t

/-- Strict comparison on SJF keys, none standing for infinity. -/
def PriorityQueue.ltKey : Option ℚ → Option ℚ → Bool
  | none, _ => false
  | some _, none => true
  | some a, some b => decide (a < b)

/-- Embeds the scan loop of get_next_sjf: visits the jobs left to right and
keeps the index of the first job whose key is strictly smaller than the
best seen so far. -/
def PriorityQueue.sjfScan : List Job → Nat → Nat → Option ℚ → Nat
  | [], _, best_idx, _ => best_idx
  | j :: rest, i, best_idx, best_key =>
    if PriorityQueue.ltKey (PriorityQueue.sjfKey j) best_key then
      PriorityQueue.sjfScan rest (i + 1) i (PriorityQueue.sjfKey j)
    else
      PriorityQueue.sjfScan rest (i + 1) best_idx best_key

/-- Embeds PriorityQueue.get_next_sjf: the scan starts from index 0 with
the key of the first job (exactly as the Python loop, whose first iteration
never improves on the initial minimum), then queue.pop(min_idx). -/
def PriorityQueue.get_next_sjf (q : List Job) : Option (Job × List Job) :=
  match q with
  | [] => none
  | j0 :: _ =>
    match q.get? (PriorityQueue.sjfScan q 0 0 (PriorityQueue.sjfKey j0)) with
    | some j => some (j, q.eraseIdx (PriorityQueue.sjfScan q 0 0 (PriorityQueue.sjfKey j0)))
    | none => none

/-- Embeds PriorityQueue.get_next_priority: for each type in the priority
order, scan the queue for the first job of that type and pop it; if no
waiting job matches any listed type, pop the head (FIFO fallback). -/
def PriorityQueue.get_next_priority (priority_order : List String) (q : List Job) :
    Option (Job × List Job) :=
  if q.isEmpty then none
  else
    match priority_order.findSome?
        (fun t => PriorityQueue.popFirst (fun j => j.job_type == t) q) with
    | some r => some r
    | none =>
      match q with
      | [] => none
      | j :: rest => some (j, rest)

/-- Counter-and-occupancy state of a LimitedQueue of
src/capacity/limited_queue.py: occupancy is the SimPy resource count,
waiting the length of its request queue, and the three statistics counters
are the ones the class maintains. -/
structure LQState where
  occupancy : Nat
  waiting : Nat
  total_arrivals : Nat
  total_rejections : Nat
  jobs_completed : Nat
deriving DecidableEq

/-- Initial state of a LimitedQueue: all counters zero. -/
def LQState.init : LQState := ⟨0, 0, 0, 0, 0⟩

/-- Labels of capacity-queue transitions: a job arrival, carrying the job
as presented and the job after the arrival-time mutations, or a service
completion. -/
inductive LQLabel where
  | arrive (j j' : Job)
  | release
deriving DecidableEq

/-- Small-step semantics of LimitedQueue.process_job with C servers (ks)
and K queue slots (kf).  On arrival the code compares occupancy + waiting
against C + K before requesting the resource and rejects with reason
queue_full when full; otherwise the request is granted at once when a
server is free (SimPy triggers it immediately) and waits otherwise; on a
completion the slot is handed to a waiter if one exists. -/
inductive LQStep (C K : Nat) : LQLabel → LQState → LQState → Prop
  | arrive_reject (j : Job) (s : LQState) (h : C + K ≤ s.occupancy + s.waiting) :
      LQStep C K
        (.arrive j { j with was_rejected := true, rejection_reason := some "queue_full" }) s
        { s with total_arrivals := s.total_arrivals + 1,
                 total_rejections := s.total_rejections + 1 }
  | arrive_grant (j : Job) (s : LQState) (h : s.occupancy + s.waiting < C + K)
      (hfree : s.occupancy < C) :
      LQStep C K (.arrive j j) s
        { s with total_arrivals := s.total_arrivals + 1, occupancy := s.occupancy + 1 }
  | arrive_wait (j : Job) (s : LQState) (h : s.occupancy + s.waiting < C + K)
      (hbusy : C ≤ s.occupancy) :
      LQStep C K (.arrive j j) s
        { s with total_arrivals := s.total_arrivals + 1, waiting := s.waiting + 1 }
  | release_handover (s : LQState) (h : 0 < s.occupancy) (hw : 0 < s.waiting) :
      LQStep C K .release s
        { s with waiting := s.waiting - 1, jobs_completed := s.jobs_completed + 1 }
  | release_free (s : LQState) (h : 0 < s.occupancy) (hw : s.waiting = 0) :
      LQStep C K .release s
        { s with occupancy := s.occupancy - 1, jobs_completed := s.jobs_completed + 1 }

/-- States of a LimitedQueue reachable from the initial state. -/
inductive LQReachable (C K : Nat) : LQState → Prop
  | init : LQReachable C K LQState.init
  | step {s s' : LQState} {l : LQLabel} :
      LQReachable C K s → LQStep C K l s s' → LQReachable C K s'

/-- Counter state of a LossSystem of src/capacity/limited_queue.py. -/
structure LSState where
  occupancy : Nat
  waiting : Nat
  total_arrivals : Nat
  total_rejections : Nat
  jobs_completed : Nat
deriving DecidableEq

/-- Initial state of a LossSystem: all counters zero. -/
def LSState.init : LSState := ⟨0, 0, 0, 0, 0⟩

/-- Small-step semantics of LossSystem.process_job: an arrival with all C
servers busy is rejected immediately with reason servers_full; otherwise
the request is granted at the same instant (no yield separates the check
from the request, and SimPy triggers a request at once while occupancy is
below capacity), so no request ever stays in the waiting queue. -/
inductive LSStep (C : Nat) : LQLabel → LSState → LSState → Prop
  | arrive_reject (j : Job) (s : LSState) (h : C ≤ s.occupancy) :
      LSStep C
        (.arrive j { j with was_rejected := true, rejection_reason := some "servers_full" }) s
        { s with total_arrivals := s.total_arrivals + 1,
                 total_rejections := s.total_rejections + 1 }
  | arrive_grant (j : Job) (s : LSState) (h : s.occupancy < C) :
      LSStep C (.arrive j j) s
        { s with total_arrivals := s.total_arrivals + 1, occupancy := s.occupancy + 1 }
  | release (s : LSState) (h : 0 < s.occupancy) :
      LSStep C .release s
        { s with occupancy := s.occupancy - 1, jobs_completed := s.jobs_completed + 1 }

/-- States of a LossSystem reachable from the initial state. -/
inductive LSReachable (C : Nat) : LSState → Prop
  | init : LSReachable C LSState.init
  | step {s s' : LSState} {l : LQLabel} :
      LSReachable C s → LSStep C l s s' → LSReachable C s'

/-- State of the HeterogeneousServer lifecycles of src/regulation/server.py:
the number of lifecycles that have appended their job to the custom queue
and are still suspended on the resource request, and the custom queue. -/
structure HState where
  waiting_procs : Nat
  queue : List Job
deriving DecidableEq

/-- Initial HeterogeneousServer state: no lifecycle, empty custom queue. -/
def HState.init : HState := ⟨0, []⟩

/-- Small-step semantics of HeterogeneousServer.process_job for a fixed
dequeue policy: a lifecycle appends its job to the custom queue and then
requests a slot (arrive); a slot grant resumes one suspended lifecycle,
which dequeues one job through the policy (grant).  A grant requires a
suspended lifecycle to exist. -/
inductive HStep (policy : List Job → Option (Job × List Job)) : HState → HState → Prop
  | arrive (j : Job) (s : HState) :
      HStep policy s ⟨s.waiting_procs + 1, s.queue ++ [j]⟩
  | grant (s : HState) (h : 0 < s.waiting_procs) :
      HStep policy s
        ⟨s.waiting_procs - 1,
          match policy s.queue with
          | some r => r.2
          | none => s.queue⟩

/-- HeterogeneousServer states reachable from the initial state. -/
inductive HReachable (policy : List Job → Option (Job × List Job)) : HState → Prop
  | init : HReachable policy HState.init
  | step {s s' : HState} : HReachable policy s → HStep policy s s' → HReachable policy s'

/-- A dequeue policy that, on every nonempty queue, returns some job
together with a remainder exactly one shorter. -/
def PopsOne (f : List Job → Option (Job × List Job)) : Prop :=
  ∀ q : List Job, q ≠ [] → ∃ j rest, f q = some (j, rest) ∧ rest.length + 1 = q.length

/-- Embeds the event dict built by SimulationLogger.log_event of
src/core/simulation_engine.py: simulation time, event type, entity id and
type, server id, queue length, the wall-clock timestamp taken from
datetime.now at emission, and the merged extra_data fields. -/
structure EventRecord where
  time : ℚ
  event_type : String
  entity_id : Nat
  entity_type : String
  server_id : Option String
  queue_length : Option Nat
  timestamp : ℚ
  extra : List (String × ℚ)
deriving DecidableEq

/-- Embeds SimulationLogger.log_event: appends one record to the event
list; the timestamp field is datetime.now, an input external to the
simulation, passed here as the wall_clock argument. -/
def SimulationLogger.log_event (events : List EventRecord) (time : ℚ) (event_type : String)
    (entity_id : Nat) (entity_type : String) (server_id : Option String)
    (queue_length : Option Nat) (wall_clock : ℚ) (extra : List (String × ℚ)) :
    List EventRecord :=
  events ++ [{ time := time, event_type := event_type, entity_id := entity_id,
               entity_type := entity_type, server_id := server_id,
               queue_length := queue_length, timestamp := wall_clock, extra := extra }]

/-- Models the seeded pseudo-random source of the engine: after
random.seed(seed) the k-th draw is a deterministic function of the seed
alone; a concrete deterministic stream stands in for the Mersenne Twister. -/
def randStream (seed k : Nat) : ℚ := (((seed + 1) * 2654435761 + k * 40503) % 97 : Nat) / 10

/-- Models a run of SimulationEngine with a fixed seed driving
LossSystem.process_job for a sequence of jobs that each complete before the
next arrives: per job a start_service and an end_service record are logged
through log_event, with the service time and inter-arrival gap drawn from
the seeded stream and the wall-clock timestamps from the ambient clock. -/
def simRunAux (seed : Nat) (wall_clock : Nat → ℚ) : Nat → Nat → ℚ → Nat → List EventRecord
  | 0, _, _, _ => []
  | n + 1, i, t, k =>
    SimulationLogger.log_event
      (SimulationLogger.log_event [] t "start_service" i "ING" (some "loss_system") (some 0)
        (wall_clock k) [])
      (t + randStream seed (2 * i)) "end_service" i "ING" (some "loss_system") (some 0)
      (wall_clock (k + 1))
      [("service_time", randStream seed (2 * i)), ("response_time", randStream seed (2 * i))]
    ++ simRunAux seed wall_clock n (i + 1)
        (t + randStream seed (2 * i) + randStream seed (2 * i + 1)) (k + 2)

/-- A full run: number of jobs (the configuration), the seed, and the
ambient wall clock feeding datetime.now. -/
def simRun (num_jobs seed : Nat) (wall_clock : Nat → ℚ) : List EventRecord :=
  simRunAux seed wall_clock num_jobs 0 0 0

/-- Erases the wall-clock timestamp field of a record. -/
def EventRecord.eraseTimestamp (e : EventRecord) : EventRecord := { e with timestamp := 0 }

/-- Embeds GatingController.__init__ of src/regulation/gating.py: the
interval list is stored as given; no validation of any kind is performed,
so construction never fails.  The Except type records that a Python
constructor could raise an error. -/
def GatingController.init (gating_intervals : List (ℚ × ℚ)) :
    Except String (List (ℚ × ℚ)) :=
  Except.ok gating_intervals

/-- Embeds LimitedQueue.__init__: the repository code stores max_queue_size
and num_servers without any check; the only failure comes from the external
SimPy library, whose Resource constructor raises for a capacity that is not
positive. -/
def LimitedQueue.init (max_queue_size num_servers : Int) : Except String (Int × Int) :=
  if num_servers ≤ 0 then Except.error "capacity must be greater than zero"
  else Except.ok (max_queue_size, num_servers)

/-- Embeds HeterogeneousServer.__init__: the scheduling policy string is
stored unvalidated (an unknown name silently falls back to FIFO at dispatch
time); only the external SimPy Resource capacity check can fail. -/
def HeterogeneousServer.init (num_servers : Int) (scheduling_policy : String) :
    Except String (Int × String) :=
  if num_servers ≤ 0 then Except.error "capacity must be greater than zero"
  else Except.ok (num_servers, scheduling_policy)

/-- True exactly on a successful construction. -/
def isOk {α : Type} (e : Except String α) : Bool :=
  match e with
  | Except.ok _ => true
  | Except.error _ => false

/-- A fresh ING job arriving at time 0. -/
def job0 : Job := { id := 0, job_type := "ING", arrival_time := 0 }

/-- A job with a known service duration of 0. -/
def jobZero : Job := { id := 1, job_type := "ING", arrival_time := 0, service_time := some 0 }

/-- A job with a known service duration of 2. -/
def jobTwo : Job := { id := 2, job_type := "ING", arrival_time := 0, service_time := some 2 }

/-- A PREPA job with a known service duration. -/
def jobPrepa : Job := { id := 3, job_type := "PREPA", arrival_time := 0, service_time := some 1 }

/-- An ING job with a known service duration. -/
def jobIng : Job := { id := 4, job_type := "ING", arrival_time := 0, service_time := some 1 }

/-- A job with a known service duration of 5. -/
def jobFive : Job := { id := 5, job_type := "ING", arrival_time := 0, service_time := some 5 }

/-- A job with a known service duration of 8. -/
def jobEight : Job := { id := 6, job_type := "ING", arrival_time := 0, service_time := some 8 }

end Ero2

namespace Ero2

/-- CLAIM C9: for every completed job, arrival ≤ start ≤ end, waiting time
(start minus arrival) is nonnegative, response time (end minus arrival) is
nonnegative, and waiting and response are None until start and end are set.
The hypotheses record that the SimPy clock is monotone (the slot is granted
no earlier than the arrival instant) and that service durations are
nonnegative. -/
theorem job_time_invariants (sid : String) (job : Job) (g d : ℚ)
    (harr : job.arrival_time ≤ g) (hd : 0 ≤ d) :
    ∃ s e, (Server.process sid job g d).start_time = some s ∧
      (Server.process sid job g d).end_time = some e ∧
      job.arrival_time ≤ s ∧ s ≤ e ∧
      (Server.process sid job g d).get_waiting_time = some (s - job.arrival_time) ∧
      0 ≤ s - job.arrival_time ∧
      (Server.process sid job g d).get_response_time = some (e - job.arrival_time) ∧
      0 ≤ e - job.arrival_time ∧
      (∀ j : Job, j.start_time = none → j.get_waiting_time = none) ∧
      (∀ j : Job, j.end_time = none → j.get_response_time = none) := by
  refine ⟨g, g + d, rfl, rfl, harr, by linarith, rfl, by linarith, rfl, by linarith, ?_, ?_⟩
  · intro j hj
    simp [Job.get_waiting_time, hj]
  · intro j hj
    simp [Job.get_response_time, hj]

/-- Witness for job_time_invariants at a concrete job: arrival 1, grant
time 2, duration 3. -/
theorem job_time_invariants_witness :
    ({ id := 0, job_type := "ING", arrival_time := 1 } : Job).arrival_time ≤ 2 ∧ (0 : ℚ) ≤ 3 ∧
    (∃ s e,
      (Server.process "s" { id := 0, job_type := "ING", arrival_time := 1 } 2 3).start_time = some s ∧
      (Server.process "s" { id := 0, job_type := "ING", arrival_time := 1 } 2 3).end_time = some e ∧
      ({ id := 0, job_type := "ING", arrival_time := 1 } : Job).arrival_time ≤ s ∧ s ≤ e ∧
      (Server.process "s" { id := 0, job_type := "ING", arrival_time := 1 } 2 3).get_waiting_time =
        some (s - ({ id := 0, job_type := "ING", arrival_time := 1 } : Job).arrival_time) ∧
      0 ≤ s - ({ id := 0, job_type := "ING", arrival_time := 1 } : Job).arrival_time ∧
      (Server.process "s" { id := 0, job_type := "ING", arrival_time := 1 } 2 3).get_response_time =
        some (e - ({ id := 0, job_type := "ING", arrival_time := 1 } : Job).arrival_time) ∧
      0 ≤ e - ({ id := 0, job_type := "ING", arrival_time := 1 } : Job).arrival_time ∧
      (∀ j : Job, j.start_time = none → j.get_waiting_time = none) ∧
      (∀ j : Job, j.end_time = none → j.get_response_time = none)) := by
  refine ⟨by norm_num, by norm_num, ?_⟩
  exact job_time_invariants "s" { id := 0, job_type := "ING", arrival_time := 1 } 2 3
    (by norm_num) (by norm_num)

/-- CLAIM C7: is_open is true iff the time lies in none of the closed
half-open intervals (each containing its start and excluding its end); the
concrete examples with intervals (10,20) and (30,40) evaluate as the claim
states, and a job arriving at t = 12 resumes from the gating wait exactly at
t = 20, an instant at which the system is open. -/
theorem gating_is_open_iff :
    (∀ (ivs : List (ℚ × ℚ)) (t : ℚ),
      GatingController.is_open ivs t = true ↔ ∀ p ∈ ivs, ¬(p.1 ≤ t ∧ t < p.2)) ∧
    GatingController.is_open [(10, 20), (30, 40)] 5 = true ∧
    GatingController.is_open [(10, 20), (30, 40)] 15 = false ∧
    GatingController.is_open [(10, 20), (30, 40)] 25 = true ∧
    GatingController.is_open [(10, 20), (30, 40)] 35 = false ∧
    GatingController.wait_until_open_run [(10, 20), (30, 40)] 12 = 20 ∧
    GatingController.is_open [(10, 20), (30, 40)] 20 = true := by
  refine ⟨?_, by decide, by decide, by decide, by decide, by decide, by decide⟩
  intro ivs t
  simp [GatingController.is_open, List.any_eq_true]

/-- CLAIM C5 (code-bug exhibit): on a waiting set whose two jobs have the
known service durations 0 and 2, get_next_sjf returns the job with
duration 2 rather than the job with the minimal duration 0: the Python
truthiness test on job.service_time treats the duration 0.0 like None and
maps it to infinity.  On the claimed example durations 5, 2, 8 the job with
duration 2 is correctly selected. -/
theorem sjf_zero_duration_bug :
    PriorityQueue.get_next_sjf [jobZero, jobTwo] = some (jobTwo, [jobZero]) ∧
    jobZero.service_time = some 0 ∧ jobTwo.service_time = some 2 ∧ (0 : ℚ) < 2 ∧
    PriorityQueue.get_next_sjf [jobFive, jobTwo, jobEight] =
      some (jobTwo, [jobFive, jobEight]) := by
  refine ⟨by decide, rfl, rfl, by norm_num, by decide⟩

/-- Conservation and capacity invariant of the LimitedQueue counters. -/
theorem lq_invariant {C K : Nat} {s : LQState} (h : LQReachable C K s) :
    s.total_arrivals = s.total_rejections + s.jobs_completed + s.waiting + s.occupancy ∧
    s.occupancy + s.waiting ≤ C + K ∧ s.occupancy ≤ C := by
  induction h with
  | init => simp [LQState.init]
  | step hr hs ih => cases hs <;> simp_all <;> omega

/-- CLAIM C2 (amended): at every reachable instant of a LimitedQueue,
total arrivals equals rejections plus completions plus the jobs still in
flight (waiting or occupying a server); consequently arrivals equals
completions plus rejections exactly when no job is left in flight when the
run ends. -/
theorem arrivals_conservation {C K : Nat} {s : LQState} (h : LQReachable C K s) :
    s.total_arrivals = s.total_rejections + s.jobs_completed + (s.waiting + s.occupancy) ∧
    (s.waiting = 0 → s.occupancy = 0 →
      s.total_arrivals = s.total_rejections + s.jobs_completed) := by
  have hinv := lq_invariant h
  omega

/-- Witness for arrivals_conservation at the reachable state after one
admitted arrival. -/
theorem arrivals_conservation_witness :
    LQReachable 1 1 ⟨1, 0, 1, 0, 0⟩ ∧
    ((1 : Nat) = 0 + 0 + (0 + 1) ∧
      ((0 : Nat) = 0 → (1 : Nat) = 0 → (1 : Nat) = 0 + 0)) := by
  have hreach : LQReachable 1 1 ⟨1, 0, 1, 0, 0⟩ :=
    LQReachable.step LQReachable.init
      (LQStep.arrive_grant job0 LQState.init (by decide) (by decide))
  exact ⟨hreach, arrivals_conservation hreach⟩

/-- CLAIM C2 (counterexample to the claim as stated): after a run in which
one job arrived and is still in service when the run ends, total arrivals
is 1 while completions plus rejections is 0, so the claimed equality fails
for runs that end with jobs in flight. -/
theorem arrivals_conservation_cx :
    LQReachable 1 1 ⟨1, 0, 1, 0, 0⟩ ∧
    ¬((1 : Nat) = 0 + 0) := by
  constructor
  · exact LQReachable.step LQReachable.init
      (LQStep.arrive_grant job0 LQState.init (by decide) (by decide))
  · decide

/-- CLAIM C3: in a bounded-wait LimitedQueue with capacity C and wait
limit K, an arriving fresh job is rejected, with rejection reason
queue_full, iff at its arrival instant occupancy + waiting is at least
C + K; and the state after the step still satisfies
occupancy + waiting ≤ C + K and occupancy ≤ C. -/
theorem bounded_wait_rejection {C K : Nat} {s s' : LQState} {j j' : Job}
    (hr : LQReachable C K s) (hstep : LQStep C K (.arrive j j') s s')
    (hfresh : j.was_rejected = false) :
    ((j'.was_rejected = true ∧ j'.rejection_reason = some "queue_full" ∧
      s'.total_rejections = s.total_rejections + 1) ↔ C + K ≤ s.occupancy + s.waiting) ∧
    s'.occupancy + s'.waiting ≤ C + K ∧ s'.occupancy ≤ C := by
  have hinv' := lq_invariant (LQReachable.step hr hstep)
  refine ⟨?_, hinv'.2.1, hinv'.2.2⟩
  cases hstep with
  | arrive_reject j s h => exact ⟨fun _ => h, fun _ => ⟨rfl, rfl, rfl⟩⟩
  | arrive_grant j s h hfree =>
    exact ⟨fun hc => absurd hc.1 (by simp [hfresh]), fun hc => absurd hc (by omega)⟩
  | arrive_wait j s h hbusy =>
    exact ⟨fun hc => absurd hc.1 (by simp [hfresh]), fun hc => absurd hc (by omega)⟩

/-- Witness for bounded_wait_rejection: a fresh job arriving at the empty
queue with C = 1, K = 1 is admitted, and the iff is settled negatively. -/
theorem bounded_wait_rejection_witness :
    ((job0.was_rejected = true ∧ job0.rejection_reason = some "queue_full" ∧
        (0 : Nat) = 0 + 1) ↔ (1 + 1 : Nat) ≤ 0 + 0) ∧
    ((1 : Nat) + 0 ≤ 1 + 1 ∧ (1 : Nat) ≤ 1) := by
  have hstep : LQStep 1 1 (.arrive job0 job0) LQState.init ⟨1, 0, 1, 0, 0⟩ :=
    LQStep.arrive_grant job0 LQState.init (by decide) (by decide)
  exact bounded_wait_rejection LQReachable.init hstep rfl

/-- Invariant of the LossSystem counters: no request ever waits and the
occupancy never exceeds the capacity. -/
theorem ls_invariant {C : Nat} {s : LSState} (h : LSReachable C s) :
    s.waiting = 0 ∧ s.occupancy ≤ C := by
  induction h with
  | init => simp [LSState.init]
  | step hr hs ih => cases hs <;> simp_all <;> omega

/-- CLAIM C4: in a no-wait LossSystem with capacity C, the waiting count of
every reachable state is 0 and occupancy never exceeds C; an arriving fresh
job is rejected, with rejection reason servers_full, iff its arrival
instant finds occupancy equal to C, and a non-rejected arrival acquires a
slot at once, leaving the waiting count at 0. -/
theorem loss_system_spec (C : Nat) :
    (∀ s : LSState, LSReachable C s → s.waiting = 0 ∧ s.occupancy ≤ C) ∧
    (∀ (s s' : LSState) (j j' : Job), LSReachable C s →
      LSStep C (.arrive j j') s s' → j.was_rejected = false →
      (((j'.was_rejected = true ∧ j'.rejection_reason = some "servers_full") ↔
        s.occupancy = C) ∧ s'.waiting = 0)) := by
  refine ⟨fun s hr => ls_invariant hr, fun s s' j j' hr hstep hfresh => ?_⟩
  have hinv := ls_invariant hr
  cases hstep with
  | arrive_reject j s h =>
    exact ⟨⟨fun _ => le_antisymm hinv.2 h, fun _ => ⟨rfl, rfl⟩⟩, hinv.1⟩
  | arrive_grant j s h =>
    exact ⟨⟨fun hc => absurd hc.1 (by simp [hfresh]), fun hc => absurd hc (by omega)⟩, hinv.1⟩

/-- Witness for loss_system_spec: the initial state of a one-server loss
system, and a fresh job admitted there. -/
theorem loss_system_spec_witness :
    ((0 : Nat) = 0 ∧ (0 : Nat) ≤ 1) ∧
    (((job0.was_rejected = true ∧ job0.rejection_reason = some "servers_full") ↔
      (0 : Nat) = 1) ∧ (0 : Nat) = 0) := by
  refine ⟨(loss_system_spec 1).1 LSState.init LSReachable.init, ?_⟩
  exact (loss_system_spec 1).2 LSState.init ⟨1, 0, 1, 0, 0⟩ job0 job0 LSReachable.init
    (LSStep.arrive_grant job0 LSState.init (by decide)) rfl

/-- popFirst follows find?: it returns none when no job matches, and pops
exactly the first matching job, shortening the queue by one. -/
theorem popFirst_spec (p : Job → Bool) :
    ∀ q : List Job,
      (q.find? p = none → PriorityQueue.popFirst p q = none) ∧
      (∀ j, q.find? p = some j → ∃ rest, PriorityQueue.popFirst p q = some (j, rest) ∧
        rest.length + 1 = q.length) := by
  intro q
  induction q with
  | nil => exact ⟨fun _ => rfl, fun j h => by simp at h⟩
  | cons a q ih =>
    by_cases hp : p a
    · refine ⟨fun h => ?_, fun j h => ?_⟩
      · rw [List.find?_cons_of_pos _ hp] at h
        cases h
      · rw [List.find?_cons_of_pos _ hp] at h
        cases h
        exact ⟨q, by simp [PriorityQueue.popFirst, hp], by simp⟩
    · refine ⟨fun h => ?_, fun j h => ?_⟩
      · rw [List.find?_cons_of_neg _ hp] at h
        simp [PriorityQueue.popFirst, hp, ih.1 h]
      · rw [List.find?_cons_of_neg _ hp] at h
        obtain ⟨rest, hrest, hlen⟩ := ih.2 j h
        exact ⟨a :: rest, by simp [PriorityQueue.popFirst, hp, hrest], by simp [← hlen]⟩

/-- A true any yields a successful find?. -/
theorem exists_find_of_any {p : Job → Bool} {q : List Job} (h : q.any p = true) :
    ∃ j, q.find? p = some j := by
  cases hf : q.find? p with
  | some j => exact ⟨j, rfl⟩
  | none =>
    rw [List.find?_eq_none] at hf
    obtain ⟨x, hx, hpx⟩ := List.any_eq_true.mp h
    exact absurd hpx (by simpa using hf x hx)

/-- The search over the priority order performed by get_next_priority pops
at the first listed type present in the queue. -/
theorem findSome_pop (q : List Job) :
    ∀ order : List String,
      order.findSome? (fun t => PriorityQueue.popFirst (fun j => j.job_type == t) q) =
        match order.find? (fun u => q.any (fun x => x.job_type == u)) with
        | some t => PriorityQueue.popFirst (fun j => j.job_type == t) q
        | none => none := by
  intro order
  induction order with
  | nil => rfl
  | cons u order ih =>
    by_cases hq : q.any (fun x => x.job_type == u) = true
    · obtain ⟨j, hj⟩ := exists_find_of_any hq
      obtain ⟨rest, hrest, _⟩ := (popFirst_spec _ q).2 j hj
      simp [List.findSome?_cons, List.find?, hq, hrest]
    · have hq' : q.any (fun x => x.job_type == u) = false := by simpa using hq
      have hnone : PriorityQueue.popFirst (fun j => j.job_type == u) q = none := by
        refine (popFirst_spec _ q).1 ?_
        rw [List.find?_eq_none]
        intro x hx
        by_contra hc
        exact hq (List.any_eq_true.mpr ⟨x, hx, by simpa using hc⟩)
      simp [List.findSome?_cons, List.find?, hq', hnone, ih]

/-- CLAIM C6: for every nonempty waiting set and every priority order,
get_next_priority returns the first-enqueued job whose type is the
earliest-listed type present in the set, falls back to the oldest job when
no waiting job has a listed type, and in particular with the order ING,
PREPA it returns an ING job whenever one is waiting. -/
theorem priority_select_spec (order : List String) (q : List Job) (hne : q ≠ []) :
    ∃ j rest, PriorityQueue.get_next_priority order q = some (j, rest) ∧
      (∀ t, order.find? (fun u => q.any (fun x => x.job_type == u)) = some t →
        q.find? (fun x => x.job_type == t) = some j) ∧
      (order.find? (fun u => q.any (fun x => x.job_type == u)) = none → q.head? = some j) ∧
      (order = ["ING", "PREPA"] → q.any (fun x => x.job_type == "ING") = true →
        j.job_type = "ING") := by
  unfold PriorityQueue.get_next_priority
  rw [if_neg (by simpa using hne), findSome_pop]
  cases hfind : order.find? (fun u => q.any (fun x => x.job_type == u)) with
  | some t =>
    have hat : q.any (fun x => x.job_type == t) = true := by
      have h2 := List.find?_some hfind
      simpa using h2
    obtain ⟨j, hj⟩ := exists_find_of_any hat
    obtain ⟨rest, hrest, _⟩ := (popFirst_spec _ q).2 j hj
    refine ⟨j, rest, by simp [hrest], ?_, ?_, ?_⟩
    · intro t' ht'
      cases ht'
      exact hj
    · intro h0
      cases h0
    · intro hord hING
      subst hord
      have hred : List.find? (fun u => q.any (fun x => x.job_type == u)) ["ING", "PREPA"] =
          some "ING" := by
        simp [List.find?, hING]
      rw [hred] at hfind
      cases hfind
      have h3 := List.find?_some hj
      simpa using h3
  | none =>
    match q, hne with
    | a :: q0, _ =>
      refine ⟨a, q0, rfl, ?_, fun _ => rfl, ?_⟩
      · intro t ht
        cases ht
      · intro hord hING
        exfalso
        subst hord
        have hred : List.find? (fun u => (a :: q0).any (fun x => x.job_type == u))
            ["ING", "PREPA"] = some "ING" := by
          simp [List.find?, hING]
        rw [hred] at hfind
        cases hfind

/-- Witness for priority_select_spec: a waiting set holding a PREPA job
ahead of an ING job, with the order ING, PREPA. -/
theorem priority_select_spec_witness :
    ([jobPrepa, jobIng] : List Job) ≠ [] ∧
    (∃ j rest,
      PriorityQueue.get_next_priority ["ING", "PREPA"] [jobPrepa, jobIng] = some (j, rest) ∧
      (∀ t, (["ING", "PREPA"] : List String).find?
          (fun u => ([jobPrepa, jobIng] : List Job).any (fun x => x.job_type == u)) = some t →
        ([jobPrepa, jobIng] : List Job).find? (fun x => x.job_type == t) = some j) ∧
      ((["ING", "PREPA"] : List String).find?
          (fun u => ([jobPrepa, jobIng] : List Job).any (fun x => x.job_type == u)) = none →
        ([jobPrepa, jobIng] : List Job).head? = some j) ∧
      ((["ING", "PREPA"] : List String) = ["ING", "PREPA"] →
        ([jobPrepa, jobIng] : List Job).any (fun x => x.job_type == "ING") = true →
        j.job_type = "ING")) :=
  ⟨by simp, priority_select_spec ["ING", "PREPA"] [jobPrepa, jobIng] (by simp)⟩

/-- FIFO selection pops exactly one job from a nonempty queue. -/
theorem popsOne_fifo : PopsOne PriorityQueue.get_next_fifo := by
  intro q hq
  match q, hq with
  | j :: rest, _ => exact ⟨j, rest, rfl, by simp⟩

/-- The SJF scan only produces indices inside the queue. -/
theorem sjfScan_lt (n : Nat) :
    ∀ (l : List Job) (i bi : Nat) (bk : Option ℚ), bi < n → i + l.length ≤ n →
      PriorityQueue.sjfScan l i bi bk < n := by
  intro l
  induction l with
  | nil =>
    intro i bi bk h1 h2
    simpa [PriorityQueue.sjfScan] using h1
  | cons j rest ih =>
    intro i bi bk h1 h2
    simp only [PriorityQueue.sjfScan]
    split
    · exact ih (i + 1) i _ (by simp at h2; omega) (by simp at h2; omega)
    · exact ih (i + 1) bi _ h1 (by simp at h2; omega)

/-- SJF selection pops exactly one job from a nonempty queue. -/
theorem popsOne_sjf : PopsOne PriorityQueue.get_next_sjf := by
  intro q hq
  match q, hq with
  | j0 :: tl, _ =>
    have hlt : PriorityQueue.sjfScan (j0 :: tl) 0 0 (PriorityQueue.sjfKey j0) <
        (j0 :: tl).length :=
      sjfScan_lt _ _ 0 0 _ (by simp) (by simp)
    cases hg : (j0 :: tl).get? (PriorityQueue.sjfScan (j0 :: tl) 0 0 (PriorityQueue.sjfKey j0))
      with
    | none =>
      rw [List.get?_eq_getElem?] at hg
      exact absurd hg (by simp [List.getElem?_eq_getElem hlt])
    | some j =>
      rw [List.get?_eq_getElem?] at hg
      refine ⟨j, (j0 :: tl).eraseIdx
        (PriorityQueue.sjfScan (j0 :: tl) 0 0 (PriorityQueue.sjfKey j0)), ?_, ?_⟩
      · simp [PriorityQueue.get_next_sjf, hg]
      · exact List.length_eraseIdx_add_one hlt

/-- Type-priority selection pops exactly one job from a nonempty queue. -/
theorem popsOne_priority (order : List String) :
    PopsOne (PriorityQueue.get_next_priority order) := by
  intro q hq
  unfold PriorityQueue.get_next_priority
  rw [if_neg (by simpa using hq), findSome_pop]
  cases hfind : order.find? (fun u => q.any (fun x => x.job_type == u)) with
  | some t =>
    have hat : q.any (fun x => x.job_type == t) = true := by
      have h2 := List.find?_some hfind
      simpa using h2
    obtain ⟨j, hj⟩ := exists_find_of_any hat
    obtain ⟨rest, hrest, hlen⟩ := (popFirst_spec _ q).2 j hj
    exact ⟨j, rest, by simp [hrest], hlen⟩
  | none =>
    match q, hq with
    | a :: q0, _ => exact ⟨a, q0, rfl, by simp⟩

/-- One step of the HeterogeneousServer lifecycle preserves the equality
between the custom-queue length and the number of suspended lifecycles. -/
theorem hstep_len {f : List Job → Option (Job × List Job)} (hf : PopsOne f)
    {s s' : HState} (hs : HStep f s s') (ih : s.queue.length = s.waiting_procs) :
    s'.queue.length = s'.waiting_procs := by
  cases hs with
  | arrive j => simp_all
  | grant hpos =>
    have hne : s.queue ≠ [] := by
      intro h0
      rw [h0] at ih
      simp at ih
      omega
    obtain ⟨j, rest, hf', hlen⟩ := hf s.queue hne
    simp only [hf']
    omega

/-- In every reachable HeterogeneousServer state the custom queue holds
exactly one job per suspended lifecycle, for any policy that pops one job
per call. -/
theorem hreachable_len {f : List Job → Option (Job × List Job)} (hf : PopsOne f)
    {s : HState} (h : HReachable f s) : s.queue.length = s.waiting_procs := by
  induction h with
  | init => rfl
  | step hr hs ih => exact hstep_len hf hs ih

/-- CLAIM C10: every lifecycle appends its job to the custom queue before
requesting a slot and each granted slot dequeues exactly one job, so at
every grant in a reachable state the custom queue is nonempty and each of
the three policy selections (FIFO, SJF, type priority) returns a job — the
early-return branch handling a None selection is unreachable. -/
theorem policy_selection_total (order : List String) (s : HState) :
    (HReachable PriorityQueue.get_next_fifo s → 0 < s.waiting_procs →
      PriorityQueue.get_next_fifo s.queue ≠ none) ∧
    (HReachable PriorityQueue.get_next_sjf s → 0 < s.waiting_procs →
      PriorityQueue.get_next_sjf s.queue ≠ none) ∧
    (HReachable (PriorityQueue.get_next_priority order) s → 0 < s.waiting_procs →
      PriorityQueue.get_next_priority order s.queue ≠ none) := by
  refine ⟨fun hr hpos => ?_, fun hr hpos => ?_, fun hr hpos => ?_⟩
  · have hlen := hreachable_len popsOne_fifo hr
    have hne : s.queue ≠ [] := by
      intro h0
      rw [h0] at hlen
      simp at hlen
      omega
    obtain ⟨j, rest, hf', _⟩ := popsOne_fifo s.queue hne
    simp [hf']
  · have hlen := hreachable_len popsOne_sjf hr
    have hne : s.queue ≠ [] := by
      intro h0
      rw [h0] at hlen
      simp at hlen
      omega
    obtain ⟨j, rest, hf', _⟩ := popsOne_sjf s.queue hne
    simp [hf']
  · have hlen := hreachable_len (popsOne_priority order) hr
    have hne : s.queue ≠ [] := by
      intro h0
      rw [h0] at hlen
      simp at hlen
      omega
    obtain ⟨j, rest, hf', _⟩ := popsOne_priority order s.queue hne
    simp [hf']

/-- Witness for policy_selection_total at the reachable state with one
suspended lifecycle whose job is in the custom queue. -/
theorem policy_selection_total_witness :
    (0 : Nat) < 1 ∧
    PriorityQueue.get_next_fifo [job0] ≠ none ∧
    PriorityQueue.get_next_sjf [job0] ≠ none ∧
    PriorityQueue.get_next_priority ["ING", "PREPA"] [job0] ≠ none := by
  refine ⟨Nat.one_pos, ?_, ?_, ?_⟩
  · exact (policy_selection_total ["ING", "PREPA"] ⟨1, [job0]⟩).1
      (HReachable.step HReachable.init (HStep.arrive job0 HState.init)) Nat.one_pos
  · exact (policy_selection_total ["ING", "PREPA"] ⟨1, [job0]⟩).2.1
      (HReachable.step HReachable.init (HStep.arrive job0 HState.init)) Nat.one_pos
  · exact (policy_selection_total ["ING", "PREPA"] ⟨1, [job0]⟩).2.2
      (HReachable.step HReachable.init (HStep.arrive job0 HState.init)) Nat.one_pos

/-- Two runs of the same configuration and seed agree on every field of
every record once the wall-clock timestamp is erased, whatever the two
ambient clocks were and wherever the event counters start. -/
theorem simRunAux_erase (seed : Nat) (wc wc2 : Nat → ℚ) :
    ∀ (n i : Nat) (t : ℚ) (k k2 : Nat),
      (simRunAux seed wc n i t k).map EventRecord.eraseTimestamp =
        (simRunAux seed wc2 n i t k2).map EventRecord.eraseTimestamp := by
  intro n
  induction n with
  | zero =>
    intro i t k k2
    rfl
  | succ m ih =>
    intro i t k k2
    simp only [simRunAux, SimulationLogger.log_event, List.nil_append, List.map_append,
      List.map_cons, List.map_nil, EventRecord.eraseTimestamp]
    rw [ih (i + 1) (t + randStream seed (2 * i) + randStream seed (2 * i + 1)) (k + 2) (k2 + 2)]

/-- CLAIM C1 (amended): two runs constructed with identical configuration
parameters and the same seed record Event Logs that are identical
record-for-record in every field except the timestamp field, which
log_event fills from the wall clock (datetime.now) and which therefore
depends on when the run executes, not on configuration or seed. -/
theorem determinism_modulo_timestamp (n seed : Nat) (wc wc2 : Nat → ℚ) :
    (simRun n seed wc).map EventRecord.eraseTimestamp =
      (simRun n seed wc2).map EventRecord.eraseTimestamp :=
  simRunAux_erase seed wc wc2 n 0 0 0 0

/-- CLAIM C1 (counterexample to the claim as stated): two runs with the
same configuration (one job) and the same seed (42), executed under
different wall clocks, record Event Logs that are not equal
record-for-record — the timestamp field differs. -/
theorem determinism_cx :
    simRun 1 42 (fun _ => 0) ≠ simRun 1 42 (fun _ => 1) := by
  decide

/-- CLAIM C8 (counterexample to the claim as stated): the gating intervals
(10,30) and (20,40) overlap — both contain 25 — yet GatingController
construction succeeds and stores them verbatim, and a LimitedQueue with the
negative wait limit -5 is also constructed without error: no validation
happens at construction time. -/
theorem construction_validation_cx :
    ((10 : ℚ) ≤ 25 ∧ (25 : ℚ) < 30 ∧ (20 : ℚ) ≤ 25 ∧ (25 : ℚ) < 40) ∧
    GatingController.init [(10, 30), (20, 40)] = Except.ok [(10, 30), (20, 40)] ∧
    LimitedQueue.init (-5) 2 = Except.ok (-5, 2) :=
  ⟨⟨by norm_num, by norm_num, by norm_num, by norm_num⟩, rfl, rfl⟩

/-- CLAIM C8 (amended): the repository performs no construction-time
validation of scenario parameters: GatingController accepts every interval
list, overlapping or not, and LimitedQueue and HeterogeneousServer accept
every wait limit and every scheduling-policy string, failing only through
the external resource library check that the server count is positive. -/
theorem construction_no_validation :
    (∀ ivs : List (ℚ × ℚ), GatingController.init ivs = Except.ok ivs) ∧
    (∀ k n : Int, isOk (LimitedQueue.init k n) = true ↔ 0 < n) ∧
    (∀ (n : Int) (p : String), isOk (HeterogeneousServer.init n p) = true ↔ 0 < n) := by
  refine ⟨fun _ => rfl, fun k n => ?_, fun n p => ?_⟩
  · unfold LimitedQueue.init
    split <;> simp [isOk] <;> omega
  · unfold HeterogeneousServer.init
    split <;> simp [isOk] <;> omega

end Ero2
